import Mathlib

/-!
# Verification of `analysis.py` (top10-doublers-app)

Shallow embedding of the scoring pipeline in `src/analysis.py`.

Modelling conventions:
* Python/pandas floats are modelled as exact rationals; a missing value
  (`NaN`) is modelled as `none`, so a float-valued cell is `Option ℚ`
  (abbreviated `F64`).  IEEE rounding is not modelled; no claim exercises it.
  Division by zero (IEEE `inf`) is modelled as undefined (`none`); no claim
  exercises it either.
* The two irrational library functions the code uses (`math.sqrt`,
  `math.log1p`) are kept abstract: every definition is parametrised by a
  `FloatOps` record carrying them.  All claims hold for every choice of
  these functions, and witnesses instantiate them with concrete ones.
* `pandas` reductions (`mean`, `std`, `min`, `max`) skip `NaN` and return
  `NaN` on an empty/underpopulated sample, exactly as modelled below.
  `Series.std` / `rolling(..).std()` use the pandas default `ddof=1`
  (sample standard deviation): fewer than two observations give `NaN`.
* `Series.pct_change` is modelled as `close[t]/close[t-1] - 1` with `NaN`
  propagation and `NaN` at `t = 0` (no legacy forward-fill), which is the
  formula the code relies on.
-/

/-- A pandas float cell: `none` is `NaN`. -/
abbrev F64 := Option ℚ

/-- The irrational float functions used by the code (`math.sqrt`,
`math.log1p`), kept abstract. -/
structure FloatOps where
  sqrt : ℚ → ℚ
  log1p : ℚ → ℚ

/-- NaN-propagating addition. -/
def addF : F64 → F64 → F64
  | some a, some b => some (a + b)
  | _, _ => none

/-- NaN-propagating subtraction. -/
def subF : F64 → F64 → F64
  | some a, some b => some (a - b)
  | _, _ => none

/-- NaN-propagating multiplication. -/
def mulF : F64 → F64 → F64
  | some a, some b => some (a * b)
  | _, _ => none

/-- NaN-propagating division; division by zero is modelled as undefined. -/
def divF : F64 → F64 → F64
  | some a, some b => if b = 0 then none else some (a / b)
  | _, _ => none

/-- NaN-propagating absolute value. -/
def absF : F64 → F64
  | some a => some |a|
  | none => none

/-- Float comparison `a < q`: false when `a` is NaN (IEEE semantics). -/
def ltQB : F64 → ℚ → Bool
  | some a, q => decide (a < q)
  | none, _ => false

/-- pandas `mean` over a column: skip NaN; NaN when no observation. -/
def meanF (l : List F64) : F64 :=
  let v := l.filterMap id
  if v.length = 0 then none else some (v.sum / v.length)

/-- pandas `std` (default `ddof=1`) over a column: skip NaN; NaN when fewer
than two observations; otherwise the sample standard deviation, whose square
root is taken by the abstract `F.sqrt`. -/
def stdF (F : FloatOps) (l : List F64) : F64 :=
  let v := l.filterMap id
  if v.length < 2 then none
  else
    let m : ℚ := v.sum / v.length
    some (F.sqrt ((v.map (fun x => (x - m) ^ 2)).sum / (v.length - 1)))

/-- pandas column-`min` (skip NaN, NaN when nothing defined). -/
def minQ : List ℚ → Option ℚ
  | [] => none
  | x :: xs => some (xs.foldl min x)

/-- pandas column-`max` (skip NaN, NaN when nothing defined). -/
def maxQ : List ℚ → Option ℚ
  | [] => none
  | x :: xs => some (xs.foldl max x)

/-- One daily OHLCV bar (`date` in days; cells may be NaN).  The `open`
column is named `open_` (`open` is a Lean keyword); it is never read by the
pipeline. -/
structure Bar where
  date : ℤ
  open_ : F64
  high : F64
  low : F64
  close : F64
  volume : F64
deriving DecidableEq

def bar0 : Bar := ⟨0, none, none, none, none, none⟩

/-- A bar extended with the derived columns added by `compute_indicators`:
`ret_1d`, `tr`, `atr`, `volatility_annual`. -/
structure IBar where
  date : ℤ
  open_ : F64
  high : F64
  low : F64
  close : F64
  volume : F64
  ret1d : F64
  tr : F64
  atr : F64
  volAnn : F64
deriving DecidableEq

def ibar0 : IBar := ⟨0, none, none, none, none, none, none, none, none, none⟩

/-- Trailing window of width `w` ending at index `t` (both in bars), as the
pandas `rolling(w, min_periods=1)` windows do. -/
def window (w t : ℕ) (l : List F64) : List F64 :=
  (l.take (t + 1)).drop (t + 1 - w)

/-- `df["close"].pct_change()`: `close[t]/close[t-1] - 1`, NaN at `t = 0`. -/
def pctChange (closes : List F64) : List F64 :=
  (List.range closes.length).map fun t =>
    match t with
    | 0 => none
    | Nat.succ k => subF (divF (closes.getD t none) (closes.getD k none)) (some 1)

/-- `compute_indicators` (analysis.py lines 103-109):
`ret_1d = close.pct_change()`, `tr = (high - low).abs()`,
`atr = tr.rolling(14, min_periods=1).mean()`,
`volatility_annual = ret_1d.rolling(21, min_periods=1).std() * sqrt(252)`. -/
def computeIndicators (F : FloatOps) (df : List Bar) : List IBar :=
  let closes := df.map (·.close)
  let rets := pctChange closes
  let trs := df.map (fun b => absF (subF b.high b.low))
  (List.range df.length).map fun t =>
    let b := df.getD t bar0
    { date := b.date, open_ := b.open_, high := b.high, low := b.low,
      close := b.close, volume := b.volume,
      ret1d := rets.getD t none,
      tr := trs.getD t none,
      atr := meanF (window 14 t trs),
      volAnn := mulF (stdF F (window 21 t rets)) (some (F.sqrt 252)) }

/-- `df.index.max()` for a non-empty frame (0 for the empty one, where the
code never asks). -/
def dateMax : List IBar → ℤ
  | [] => 0
  | b :: bs => bs.foldl (fun a r => max a r.date) b.date

/-- The window restriction of `score_for_horizon` (analysis.py lines
114-117): bars whose date is at least `end - months*30` days. -/
def recentOf (df : List IBar) (months : ℕ) : List IBar :=
  let cutoff : ℤ := dateMax df - (months : ℤ) * 30
  df.filter (fun r => decide (cutoff ≤ r.date))

/-- The record `score_for_horizon` returns (minus the symbol/horizon keys
that `analyze_universe` adds afterwards).  `avg_vol` is a defined rational:
the liquidity gate has already excluded the NaN case. -/
structure ScoreRec where
  ret : F64
  vol : F64
  avg_vol : ℚ
  score : F64
deriving DecidableEq

/-- `MIN_AVG_VOLUME` (analysis.py line 14).  Note `score_for_horizon` reads
this module constant; the `min_avg_vol` parameter of `analyze_universe` is
never used. -/
def MIN_AVG_VOLUME : ℚ := 30000

/-- `VOL_PENALTY` (line 15). -/
def VOL_PENALTY : ℚ := 1 / 2

/-- `LOGVOL_WEIGHT` (line 16). -/
def LOGVOL_WEIGHT : ℚ := 5 / 1000

/-- `score_for_horizon` (analysis.py lines 111-126).  The Python guard
`if recent["ret_1d"].std() is not None` is dead code (pandas `std` returns a
float, possibly NaN, never `None`), so the `else 0.0` branch is
unreachable and `vol` is always `std * sqrt(252)`. -/
def scoreForHorizon (F : FloatOps) (df : List IBar) (months : ℕ) : Option ScoreRec :=
  match df with
  | [] => none
  | _ :: _ =>
    let recent := recentOf df months
    if recent.length < 10 then none
    else
      let closes := recent.map (·.close)
      let totalReturn := subF (divF (closes.getLastD none) (closes.headD none)) (some 1)
      let vol := mulF (stdF F (recent.map (·.ret1d))) (some (F.sqrt 252))
      let avgVol := meanF (recent.map (·.volume))
      match avgVol with
      | none => none
      | some v =>
        if v < MIN_AVG_VOLUME then none
        else
          some { ret := totalReturn, vol := vol, avg_vol := v,
                 score := addF (subF (mulF totalReturn (some 1)) (mulF vol (some VOL_PENALTY)))
                              (mulF (some (F.log1p v)) (some LOGVOL_WEIGHT)) }

/-!
## Score normalization (analyze_universe lines 183-188)
-/

/-- `EPS_NORM`: the `1e-9` spread epsilon of analysis.py line 185 (the tiny
rounding of the float literal `1e-9` is not modelled; no claim exercises
the branch boundary). -/
def EPS_NORM : ℚ := 1 / 1000000000

/-- Lines 184-188 of analysis.py: given the pool's `score` column, produce
the `prob_est` column.  `min`/`max` skip NaN (pandas); the `abs(mx-mn) <
1e-9` test is false when either extremum is NaN (IEEE comparison). -/
def probEst (scores : List F64) : List F64 :=
  let mn := minQ (scores.filterMap id)
  let mx := maxQ (scores.filterMap id)
  if ltQB (absF (subF mx mn)) EPS_NORM then
    scores.map (fun _ => some (1 / 2))
  else
    scores.map (fun s => divF (subF s mn) (subF mx mn))

/-!
## The universe scan (analyze_universe)

External effects are modelled by oracles: `get_secret` and the two history
providers are functions from the request to its outcome (`Except Unit`
models a raised exception as `.error ()`).  `get_history` is invoked from
three call sites (the main scan, `compute_stop`, `compute_target`); the
oracle receives the call site so that distinct calls may behave
differently, as real network calls do.  The code fetches once per symbol in
the main scan and reuses the frame for all horizons; the model consults the
same (pure) oracle value per horizon, which yields the same frame.
-/

/-- The three `get_history` call sites inside `analyze_universe`. -/
inductive Site
  | pass1
  | stopCall
  | targetCall
deriving DecidableEq

/-- The external world: `get_secret`, the Dhan provider
(`fetch_dhan_candles`, already normalized to a frame, `none` = no/empty
data) and the yfinance provider (`fetch_yfinance`, `none` = empty history).
`.error ()` models a raised exception. -/
structure Oracles where
  getSecret : String → Except Unit (Option String)
  dhan : String → Site → Except Unit (Option (List Bar))
  yf : String → Site → Except Unit (Option (List Bar))

/-- Python truthiness of the token (`if dhan_token:`): an absent or empty
string is falsy. -/
def tokTruthy : Option String → Bool
  | none => false
  | some s => s ≠ ""

/-- `get_history` (analysis.py lines 90-101): try Dhan when a (truthy)
token is present, swallowing its exceptions and falling back to yfinance
when it raises, returns no data, or returns an empty frame. -/
def getHistory (O : Oracles) (tok : Option String) (sym : String) (site : Site) :
    Except Unit (Option (List Bar)) :=
  if tokTruthy tok then
    match O.dhan sym site with
    | .ok (some df) => if df.isEmpty then O.yf sym site else .ok (some df)
    | .ok none => O.yf sym site
    | .error _ => O.yf sym site
  else
    O.yf sym site

/-- One row of a horizon's pool: the `score_for_horizon` dict after
`sc.update({"symbol": sym, "horizon": h})`. -/
structure PoolRow where
  symbol : String
  horizon : ℕ
  ret : F64
  vol : F64
  avg_vol : ℚ
  score : F64
deriving DecidableEq

/-- `HORIZONS_MONTHS` (analysis.py line 13). -/
def HORIZONS : List ℕ := [6, 12, 18, 24, 48]

/-- The main-scan body for one symbol (analysis.py lines 139-152): fetch,
compute indicators, score every horizon; any exception or missing history
skips the symbol (`except Exception: continue`). -/
def symRows (F : FloatOps) (O : Oracles) (tok : Option String) (sym : String) :
    List PoolRow :=
  match getHistory O tok sym .pass1 with
  | .error _ => []
  | .ok none => []
  | .ok (some df) =>
    let d := computeIndicators F df
    HORIZONS.filterMap fun h =>
      (scoreForHorizon F d h).map fun sc =>
        ⟨sym, h, sc.ret, sc.vol, sc.avg_vol, sc.score⟩

/-- `results[h]` after the main scan: the pool rows of horizon `h`, in
universe order. -/
def poolFor (F : FloatOps) (O : Oracles) (tok : Option String)
    (syms : List String) (h : ℕ) : List PoolRow :=
  syms.flatMap fun sym => (symRows F O tok sym).filter (fun r => r.horizon = h)

/-- `compute_target` minus the fetch (analysis.py lines 155-163): `None`
when there is no/empty history or the latest close is NaN, else
`close * 3`.  Result type `Option F64`: outer `none` is Python `None`, the
inner `F64` the returned float. -/
def computeTargetDF (F : FloatOps) (sub? : Option (List Bar)) : Option F64 :=
  match sub? with
  | none => none
  | some sub =>
    if sub.isEmpty then none
    else
      let last := (computeIndicators F sub).getLastD ibar0
      match last.close with
      | none => none
      | some c => some (some (c * 3))

/-- `compute_stop` minus the fetch (analysis.py lines 166-174): `None` when
there is no/empty history or the latest ATR is NaN, else
`close - 1.5 * atr` — note the code does *not* test the latest close here,
so a NaN close with a defined ATR yields the float NaN (`some none`), not
Python `None`. -/
def computeStopDF (F : FloatOps) (sub? : Option (List Bar)) : Option F64 :=
  match sub? with
  | none => none
  | some sub =>
    if sub.isEmpty then none
    else
      let last := (computeIndicators F sub).getLastD ibar0
      match last.atr with
      | none => none
      | some a => some (subF last.close (some (3 / 2 * a)))

/-- `compute_target` (with its re-fetch; exceptions propagate — there is no
handler around the second pass). -/
def computeTarget (F : FloatOps) (O : Oracles) (tok : Option String) (sym : String) :
    Except Unit (Option F64) := do
  let sub? ← getHistory O tok sym .targetCall
  pure (computeTargetDF F sub?)

/-- `compute_stop` (with its re-fetch; exceptions propagate). -/
def computeStop (F : FloatOps) (O : Oracles) (tok : Option String) (sym : String) :
    Except Unit (Option F64) := do
  let sub? ← getHistory O tok sym .stopCall
  pure (computeStopDF F sub?)

/-- Sequential effectful map, as the Python loops / `Series.apply` run
(first exception aborts). -/
def mapME (f : α → Except Unit β) : List α → Except Unit (List β)
  | [] => .ok []
  | a :: as => do
    let b ← f a
    let bs ← mapME f as
    pure (b :: bs)

/-- Strict key order used to sort `prob_est` descending: NaN sorts last
(pandas `na_position="last"`). -/
def probLt : F64 → F64 → Bool
  | none, none => false
  | none, some _ => true
  | some _, none => false
  | some a, some b => decide (a < b)

/-- Insert into a descending-sorted list, keeping insertion-order ties
(model of the sort; see `sortDesc`). -/
def insDesc (x : PoolRow × F64) : List (PoolRow × F64) → List (PoolRow × F64)
  | [] => [x]
  | y :: ys => if probLt x.2 y.2 then y :: insDesc x ys else x :: y :: ys

/-- `dfh.sort_values("prob_est", ascending=False)` modelled as a stable
descending sort with NaN last.  Caveat: pandas' default `kind="quicksort"`
(numpy introsort) only guarantees the ordering by key, not tie stability;
it coincides with this model whenever tied keys survive the introsort
insertion path (frames of at most 16 rows) or keys are distinct. -/
def sortDesc : List (PoolRow × F64) → List (PoolRow × F64)
  | [] => []
  | x :: xs => insDesc x (sortDesc xs)

/-- One output row of a horizon sheet (the `reason` display string of line
193-195 is presentation-only and not modelled). -/
structure OutRow where
  symbol : String
  probEst : F64
  ret : F64
  vol : F64
  avg_vol : ℚ
  score : F64
  stopLoss : Option F64
  targetPrice : Option F64
deriving DecidableEq

/-- Per-horizon post-processing (analysis.py lines 178-198): empty pool →
empty sheet; otherwise normalize scores, sort descending, truncate to 10,
then attach stop-loss and target columns via the re-fetching helpers (whose
exceptions abort). -/
def topOne (F : FloatOps) (O : Oracles) (tok : Option String)
    (rows : List PoolRow) : Except Unit (List OutRow) :=
  if rows.isEmpty then .ok []
  else do
    let probs := probEst (rows.map (·.score))
    let dfh := (sortDesc (rows.zip probs)).take 10
    let stops ← mapME (fun rp => computeStop F O tok rp.1.symbol) dfh
    let targets ← mapME (fun rp => computeTarget F O tok rp.1.symbol) dfh
    pure ((dfh.zip (stops.zip targets)).map fun x =>
      { symbol := x.1.1.symbol, probEst := x.1.2, ret := x.1.1.ret,
        vol := x.1.1.vol, avg_vol := x.1.1.avg_vol, score := x.1.1.score,
        stopLoss := x.2.1, targetPrice := x.2.2 })

/-- What `analyze_universe` returns: the per-horizon top-10 sheets and the
per-horizon pool counts.  (The Excel file name built from the wall clock is
external I/O and not modelled.) -/
structure Report where
  topLists : List (ℕ × List OutRow)
  counts : List (ℕ × ℕ)
deriving DecidableEq

/-- `analyze_universe` (analysis.py lines 128-210).  `use_news`, `news_key`
and `min_avg_vol` are accepted and — exactly as in the source — never read.
`get_secret` is only consulted when `use_dhan` is set; its exception is the
fatal setup failure.  Exceptions raised by the second-pass helpers
propagate (there is no try/except around lines 191-192). -/
def analyzeUniverse (F : FloatOps) (O : Oracles) (symbols : List String)
    (useDhan useNews : Bool) (newsKey : Option String) (minAvgVol : ℚ) :
    Except Unit Report := do
  let tok ← (if useDhan then O.getSecret "DHAN_TOKEN" else pure none)
  let tops ← mapME (fun h => do
      let out ← topOne F O tok (poolFor F O tok symbols h)
      pure (h, out)) HORIZONS
  pure ⟨tops, HORIZONS.map fun h => (h, (poolFor F O tok symbols h).length)⟩

/-- Projection used to state evaluation facts about a finished run. -/
def countsOf : Except Unit Report → Option (List (ℕ × ℕ))
  | .ok r => some r.counts
  | .error _ => none

/-!
## `safe_get_json` (analysis.py lines 21-32)

The HTTP layer is an oracle from the attempt index to the parsed JSON body
(`requests.get` + `raise_for_status` + `.json()` fused; `.error ()` is any
exception).  The observable effects are recorded as a trace.
-/

/-- Observable events of `safe_get_json`: an HTTP attempt, or
`time.sleep(seconds)`. -/
inductive Ev
  | attempt (i : ℕ)
  | slept (seconds : ℕ)
deriving DecidableEq

/-- The `for i in range(retries)` loop of `safe_get_json`: `last` is
`retries - 1`, the argument counts remaining iterations.  Falling out of
the loop (only possible when `retries = 0`) is the dead `return None`. -/
def sgjGo (oracle : ℕ → Except Unit α) (last i : ℕ) :
    ℕ → Except Unit (Option α) × List Ev
  | 0 => (.ok none, [])
  | n + 1 =>
    match oracle i with
    | .ok j => (.ok (some j), [.attempt i])
    | .error e =>
      if i = last then (.error e, [.attempt i])
      else
        let r := sgjGo oracle last (i + 1) n
        (r.1, .attempt i :: .slept 1 :: r.2)

/-- `safe_get_json` with a given retry budget (the default is
`retries = 2`), returning the outcome and the event trace. -/
def safeGetJson (oracle : ℕ → Except Unit α) (retries : ℕ) :
    Except Unit (Option α) × List Ev :=
  sgjGo oracle (retries - 1) 0 retries

/-- Recognizer for HTTP attempts in a trace. -/
def isAttempt : Ev → Bool
  | .attempt _ => true
  | _ => false

/-!
## Concrete data for witnesses and counterexamples
-/

/-- Concrete float functions for closed evaluations (the claims hold for
every `FloatOps`; any instantiation will do). -/
def F0 : FloatOps := ⟨id, id⟩

/-- Bar constructor shorthand (the unused `open` column stays NaN). -/
def mkBar (d : ℤ) (h l c v : F64) : Bar := ⟨d, none, h, l, c, v⟩

/-- Ten flat bars: close 1, high = low = 1, volume 40000; qualifies every
horizon with return 0, volatility 0, average volume 40000. -/
def dfGood : List Bar :=
  (List.range 10).map fun i => mkBar i (some 1) (some 1) (some 1) (some 40000)

/-- Ten bars whose closes (and highs/lows) are all NaN but whose volume is
a healthy 50000 — the shape a provider response without a close column
produces (missing columns are filled with NaN). -/
def dfAllNaN : List Bar :=
  (List.range 10).map fun i => mkBar i none none none (some 50000)

/-- Ten bars with exactly one defined daily return (closes 1, 2, then
NaN) and healthy volume. -/
def dfC7 : List Bar :=
  (List.range 10).map fun i =>
    mkBar i none none (if i = 0 then some 1 else if i = 1 then some 2 else none) (some 50000)

/-- Two bars with closes 1 then 2: the single daily return is 1. -/
def dfC8 : List Bar := [mkBar 0 none none (some 1) none, mkBar 1 none none (some 2) none]

/-- One bar with defined high/low/close: ATR 1, close 4. -/
def subC6 : List Bar := [mkBar 0 (some 2) (some 1) (some 4) (some 5)]

/-- One bar with defined high/low but NaN close: ATR 1, close NaN. -/
def subC6nan : List Bar := [mkBar 0 (some 2) (some 1) none none]

/-- `dfGood` with indicators, for stating facts about `score_for_horizon`
inputs. -/
def dfGI : List IBar := computeIndicators F0 dfGood

/-- The score record `dfGood` earns (under `F0`). -/
def r40 : ScoreRec := ⟨some 0, some 0, 40000, some 200⟩

/-- World where yfinance always serves `dfGood` (no Dhan, no secrets). -/
def Ogood : Oracles := ⟨fun _ => .ok none, fun _ _ => .ok none, fun _ _ => .ok (some dfGood)⟩

/-- World where yfinance always serves the close-less `dfAllNaN`. -/
def OallNaN : Oracles :=
  ⟨fun _ => .ok none, fun _ _ => .ok none, fun _ _ => .ok (some dfAllNaN)⟩

/-- World where the main-scan fetch succeeds with `dfGood` but the
stop-loss re-fetch raises. -/
def OAbort : Oracles :=
  ⟨fun _ => .ok none, fun _ _ => .ok none,
   fun _ site => match site with
     | .stopCall => .error ()
     | _ => .ok (some dfGood)⟩

/-- World with a Dhan token, where both providers raise for symbol "B" in
the main scan and everything else succeeds with `dfGood`. -/
def OSplit : Oracles :=
  ⟨fun _ => .ok (some "t"),
   fun s site => match site with
     | .pass1 => if s = "B" then .error () else .ok none
     | _ => .ok none,
   fun s site => match site with
     | .pass1 => if s = "B" then .error () else .ok (some dfGood)
     | _ => .ok (some dfGood)⟩

/-- HTTP oracle whose first attempt raises and second returns 7. -/
def orW : ℕ → Except Unit ℕ := fun i => if i = 0 then .error () else .ok 7

/-- `Except` success recognizer. -/
def isOkE : Except Unit α → Bool
  | .ok _ => true
  | .error _ => false

/-!
## Theorems

Concrete evaluations are settled by `decide`.  Batteries marks the `Rat`
arithmetic operations `@[irreducible]`, which blocks kernel-checkable
evaluation of the rationals in the concrete frames, so they are restored
to the normal definitional transparency for this file.
-/

attribute [local semireducible] Rat.add Rat.sub Rat.mul Rat.inv Rat.ofScientific

set_option maxRecDepth 8000

/-- C10: `use_news` and `news_key` are accepted by `analyze_universe` and
never read, so two runs that agree on everything else produce identical
results (pools, report contents and per-horizon counts) whatever these two
arguments are. -/
theorem c10_thm (F : FloatOps) (O : Oracles) (symbols : List String)
    (useDhan un1 un2 : Bool) (nk1 nk2 : Option String) (mav : ℚ) :
    analyzeUniverse F O symbols useDhan un1 nk1 mav =
      analyzeUniverse F O symbols useDhan un2 nk2 mav := rfl

/-- C9: with the default budget `retries = 2`, `safe_get_json` makes at
most 2 attempts with a single 1-second sleep between them; a successful
attempt returns its parsed body at once; when both attempts raise, the
exception propagates (it is not converted into an empty result); and it is
(only) `get_history` that catches a Dhan failure and proceeds with the
yfinance fallback. -/
theorem c9_thm {α : Type} (oracle : ℕ → Except Unit α) (O : Oracles)
    (tok : Option String) (sym : String) (site : Site) :
    ((safeGetJson oracle 2).2.countP isAttempt ≤ 2)
    ∧ (∀ j, oracle 0 = .ok j →
        safeGetJson oracle 2 = (.ok (some j), [.attempt 0]))
    ∧ (∀ j, oracle 0 = .error () → oracle 1 = .ok j →
        safeGetJson oracle 2 = (.ok (some j), [.attempt 0, .slept 1, .attempt 1]))
    ∧ (oracle 0 = .error () → oracle 1 = .error () →
        safeGetJson oracle 2 = (.error (), [.attempt 0, .slept 1, .attempt 1]))
    ∧ (tokTruthy tok = true → O.dhan sym site = .error () →
        getHistory O tok sym site = O.yf sym site) := by
  refine ⟨?_, ?_, ?_, ?_, ?_⟩
  · cases o0 : oracle 0 with
    | error e =>
      cases o1 : oracle 1 with
      | error e' => simp [safeGetJson, sgjGo, o0, o1, isAttempt, List.countP, List.countP.go]
      | ok j => simp [safeGetJson, sgjGo, o0, o1, isAttempt, List.countP, List.countP.go]
    | ok j => simp [safeGetJson, sgjGo, o0, isAttempt, List.countP, List.countP.go]
  · intro j h0
    simp [safeGetJson, sgjGo, h0]
  · intro j h0 h1
    simp [safeGetJson, sgjGo, h0, h1]
  · intro h0 h1
    simp [safeGetJson, sgjGo, h0, h1]
  · intro ht hd
    simp [getHistory, ht, hd]

/-- C9 witness: in the world `orW` (first attempt raises, second returns
7) the default-budget call returns 7 after the trace attempt-sleep-attempt. -/
theorem c9_witness :
    orW 0 = .error () ∧
      safeGetJson orW 2 = (.ok (some 7), [.attempt 0, .slept 1, .attempt 1]) :=
  ⟨rfl, (c9_thm orW Ogood none "A" .pass1).2.2.1 7 rfl rfl⟩

/-- Element `t` of `(List.range n).map f` for `t < n`. -/
theorem getD_range_map {β : Type} (f : ℕ → β) (n t : ℕ) (d : β) (ht : t < n) :
    ((List.range n).map f).getD t d = f t := by
  rw [List.getD_eq_getElem?_getD, List.getElem?_map, List.getElem?_range ht]
  rfl

/-- Element `t` of a mapped column for `t < l.length`. -/
theorem getD_map_of_lt {β γ : Type} (f : β → γ) (l : List β) (t : ℕ) (d : β)
    (ht : t < l.length) : (l.map f).getD t (f d) = f (l.getD t d) := by
  rw [List.getD_eq_getElem?_getD, List.getElem?_map, List.getElem?_eq_getElem ht,
    List.getD_eq_getElem?_getD, List.getElem?_eq_getElem ht]
  rfl

/-- `compute_indicators` row `t`, spelled out. -/
theorem computeIndicators_getD (F : FloatOps) (df : List Bar) (t : ℕ)
    (ht : t < df.length) :
    (computeIndicators F df).getD t ibar0 =
      { date := (df.getD t bar0).date, open_ := (df.getD t bar0).open_,
        high := (df.getD t bar0).high, low := (df.getD t bar0).low,
        close := (df.getD t bar0).close, volume := (df.getD t bar0).volume,
        ret1d := (pctChange (df.map (·.close))).getD t none,
        tr := (df.map (fun b => absF (subF b.high b.low))).getD t none,
        atr := meanF (window 14 t (df.map (fun b => absF (subF b.high b.low)))),
        volAnn := mulF (stdF F (window 21 t (pctChange (df.map (·.close)))))
                    (some (F.sqrt 252)) } := by
  unfold computeIndicators
  exact getD_range_map _ _ _ _ ht

/-- C6 (amended): `compute_target` yields Python `None` on missing/empty
history or a NaN latest close and otherwise `close * 3`; `compute_stop`
yields `None` on missing/empty history or a NaN latest ATR and otherwise
the float `close - 1.5 * atr` — which is the float NaN, not `None`, when
the latest close is NaN (the code never tests the close in `compute_stop`). -/
theorem c6_amended_thm (F : FloatOps) (sub : List Bar) (hne : sub ≠ []) :
    computeTargetDF F none = none ∧ computeStopDF F none = none ∧
    computeTargetDF F (some []) = none ∧ computeStopDF F (some []) = none ∧
    (((computeIndicators F sub).getLastD ibar0).close = none →
      computeTargetDF F (some sub) = none) ∧
    (∀ c : ℚ, ((computeIndicators F sub).getLastD ibar0).close = some c →
      computeTargetDF F (some sub) = some (some (c * 3))) ∧
    (((computeIndicators F sub).getLastD ibar0).atr = none →
      computeStopDF F (some sub) = none) ∧
    (∀ a : ℚ, ((computeIndicators F sub).getLastD ibar0).atr = some a →
      computeStopDF F (some sub) =
        some (subF ((computeIndicators F sub).getLastD ibar0).close
          (some (3 / 2 * a)))) := by
  have hni : sub.isEmpty = false := by
    cases sub with
    | nil => exact absurd rfl hne
    | cons b bs => rfl
  refine ⟨rfl, rfl, rfl, rfl, ?_, ?_, ?_, ?_⟩
  · intro h
    simp only [List.getLastD_eq_getLast?] at h
    simp [computeTargetDF, hni, h]
  · intro c h
    simp only [List.getLastD_eq_getLast?] at h
    simp [computeTargetDF, hni, h]
  · intro h
    simp only [List.getLastD_eq_getLast?] at h
    simp [computeStopDF, hni, h]
  · intro a h
    simp only [List.getLastD_eq_getLast?] at h
    simp [computeStopDF, hni, h]

/-- C6 witness: on the one-bar frame `subC6` (close 4, ATR 1) the target is
`4 * 3` and the stop is `close - 1.5 * 1`. -/
theorem c6_witness :
    ((computeIndicators F0 subC6).getLastD ibar0).close = some 4 ∧
    computeTargetDF F0 (some subC6) = some (some (4 * 3)) ∧
    computeStopDF F0 (some subC6) =
      some (subF ((computeIndicators F0 subC6).getLastD ibar0).close
        (some (3 / 2 * 1))) :=
  ⟨by decide,
    (c6_amended_thm F0 subC6 (by decide)).2.2.2.2.2.1 4 (by decide),
    (c6_amended_thm F0 subC6 (by decide)).2.2.2.2.2.2.2 1 (by decide)⟩

/-- C6 counterexample: on `subC6nan` the latest close is NaN (an input the
claim says must make the stop-loss "unavailable (None/null)"), yet
`compute_stop` returns the float NaN (`some none`), a bogus value rather
than Python `None` — the code only tests the ATR. -/
theorem c6_counterexample : computeStopDF F0 (some subC6nan) = some none := by
  decide

/-- C8 (amended): the annualized-volatility column is the trailing-21-bar
rolling *sample* standard deviation (pandas default `ddof=1`) of the daily
return, times √252; a window with fewer than two defined return
observations — in particular the single-return window of the claim —
yields NaN, not `|r|·√252`. -/
theorem c8_amended_thm (F : FloatOps) (df : List Bar) (t : ℕ) (ht : t < df.length)
    (h1 : ((window 21 t (pctChange (df.map (·.close)))).filterMap id).length < 2) :
    ((computeIndicators F df).getD t ibar0).volAnn = none := by
  rw [computeIndicators_getD F df t ht]
  show mulF (stdF F (window 21 t (pctChange (df.map (·.close))))) (some (F.sqrt 252)) = none
  rw [stdF]
  simp only [if_pos h1]
  rfl

/-- C8 witness: at bar 1 of the two-bar frame `dfC8` only one daily return
is defined, and the volatility column is NaN. -/
theorem c8_witness :
    ((window 21 1 (pctChange (dfC8.map (·.close)))).filterMap id).length < 2 ∧
    ((computeIndicators F0 dfC8).getD 1 ibar0).volAnn = none :=
  ⟨by decide,
    c8_amended_thm F0 dfC8 1 (by decide) (by decide)⟩

/-- C8 counterexample: at bar 1 of `dfC8` exactly one daily return value is
available (r = 1), so the claim predicts annualized volatility
`|1|·√252` — a defined number — but the code produces NaN (pandas sample
standard deviation of a single observation is NaN). -/
theorem c8_counterexample :
    ((computeIndicators F0 dfC8).getD 1 ibar0).ret1d = some 1 ∧
    ((computeIndicators F0 dfC8).getD 1 ibar0).volAnn = none := by
  decide

/-- A column whose cells are all NaN has no defined observations. -/
theorem filterMap_id_nil (l : List F64) (h : ∀ x ∈ l, x = none) :
    l.filterMap id = [] := by
  induction l with
  | nil => rfl
  | cons x xs ih =>
    have hx := h x (List.mem_cons_self x xs)
    subst hx
    exact ih fun y hy => h y (List.mem_cons_of_mem _ hy)

/-- Last cell of an all-NaN column. -/
theorem allNone_getLastD (l : List F64) (d : F64) (hd : d = none)
    (h : ∀ x ∈ l, x = none) : l.getLastD d = none := by
  induction l generalizing d with
  | nil => exact hd
  | cons x xs ih =>
    rw [List.getLastD_cons]
    exact ih x (h x (List.mem_cons_self x xs)) fun y hy => h y (List.mem_cons_of_mem _ hy)

/-- First cell of an all-NaN column. -/
theorem allNone_headD (l : List F64) (h : ∀ x ∈ l, x = none) :
    l.headD none = none := by
  cases l with
  | nil => rfl
  | cons x xs => exact h x (List.mem_cons_self x xs)

/-- Close column element `t`. -/
theorem getD_map_close (df : List Bar) (t : ℕ) (ht : t < df.length) :
    (df.map (·.close)).getD t none = (df.getD t bar0).close := by
  have h := getD_map_of_lt (·.close) df t bar0 ht
  simpa [bar0] using h

/-- A bar whose close is NaN has a NaN daily return (`pct_change` divides
the NaN close by its predecessor). -/
theorem ret1d_none_of_close_none (F : FloatOps) (df : List Bar) (r : IBar)
    (hr : r ∈ computeIndicators F df) (hc : r.close = none) : r.ret1d = none := by
  simp only [computeIndicators, List.mem_map, List.mem_range] at hr
  obtain ⟨t, htm, rfl⟩ := hr
  have hc' : (df.getD t bar0).close = none := hc
  cases t with
  | zero =>
    show (pctChange (df.map (·.close))).getD 0 none = none
    rw [pctChange, getD_range_map _ _ _ _ (by simpa using htm)]
  | succ k =>
    show (pctChange (df.map (·.close))).getD (k + 1) none = none
    rw [pctChange, getD_range_map _ _ _ _ (by simpa using htm)]
    rw [show ((df.map (·.close)).getD (k + 1) none) = none from
      (getD_map_close df (k + 1) htm).trans hc']
    rfl

/-- C7 (amended): whenever `score_for_horizon` returns a record, its fields
are: windowed return = last recent close / first recent close − 1 (NaN
propagating); windowed volatility = sample std of the recent daily returns
× √252 — and NaN (not 0) when that std is undefined, since the code's
`is not None` guard never fires; average volume = the recent volume mean;
composite score = return·1 − volatility·0.5 + log1p(avg volume)·0.005. -/
theorem c7_amended_thm (F : FloatOps) (df : List IBar) (m : ℕ) (r : ScoreRec)
    (h : scoreForHorizon F df m = some r) :
    r.ret = subF (divF (((recentOf df m).map (·.close)).getLastD none)
        (((recentOf df m).map (·.close)).headD none)) (some 1)
    ∧ r.vol = mulF (stdF F ((recentOf df m).map (·.ret1d))) (some (F.sqrt 252))
    ∧ (stdF F ((recentOf df m).map (·.ret1d)) = none → r.vol = none)
    ∧ meanF ((recentOf df m).map (·.volume)) = some r.avg_vol
    ∧ ¬ r.avg_vol < MIN_AVG_VOLUME
    ∧ r.score = addF (subF (mulF r.ret (some 1)) (mulF r.vol (some VOL_PENALTY)))
        (mulF (some (F.log1p r.avg_vol)) (some LOGVOL_WEIGHT)) := by
  cases df with
  | nil => exact absurd h (by simp [scoreForHorizon])
  | cons b bs =>
    simp only [scoreForHorizon] at h
    split at h
    · exact absurd h (by simp)
    · split at h
      · exact absurd h (by simp)
      · rename_i v hm
        split at h
        · exact absurd h (by simp)
        · rename_i hg
          obtain rfl := Option.some.inj h
          refine ⟨rfl, rfl, ?_, hm, hg, rfl⟩
          intro hstd
          show mulF (stdF F ((recentOf (b :: bs) m).map (·.ret1d))) (some (F.sqrt 252)) = none
          rw [hstd]
          rfl


/-- C7 witness: `dfGood` with indicators scores as `r40`, whose volatility
field is the std × √252 formula. -/
theorem c7_witness :
    scoreForHorizon F0 dfGI 6 = some r40 ∧
      r40.vol = mulF (stdF F0 ((recentOf dfGI 6).map (·.ret1d))) (some (F0.sqrt 252)) :=
  ⟨by decide, (c7_amended_thm F0 dfGI 6 r40 (by decide)).2.1⟩

/-- C7 counterexample: `dfC7` has a 10-bar recent window with exactly one
defined daily return, so the claim says the windowed volatility is 0; the
code instead returns a HorizonScore whose volatility (and return and
score) is NaN. -/
theorem c7_counterexample :
    scoreForHorizon F0 (computeIndicators F0 dfC7) 6 = some ⟨none, none, 50000, none⟩ := by
  decide

/-- C4 (amended): an empty series and a recent window shorter than the
10-bar minimum each yield Insufficient (`none`), and the function is total
(never a crash); but an all-NaN-closes window is *not* Insufficient: with
enough bars and qualifying volume it yields a HorizonScore whose return,
volatility and composite score are all NaN, which then enters the
horizon's pool. -/
theorem c4_amended_thm (F : FloatOps) (m : ℕ) :
    scoreForHorizon F [] m = none
    ∧ (∀ df : List IBar, (recentOf df m).length < 10 → scoreForHorizon F df m = none)
    ∧ (∀ (bars : List Bar) (v : ℚ),
        (∀ r ∈ recentOf (computeIndicators F bars) m, r.close = none) →
        ¬ (recentOf (computeIndicators F bars) m).length < 10 →
        meanF ((recentOf (computeIndicators F bars) m).map (·.volume)) = some v →
        ¬ v < MIN_AVG_VOLUME →
        scoreForHorizon F (computeIndicators F bars) m = some ⟨none, none, v, none⟩) := by
  refine ⟨rfl, ?_, ?_⟩
  · intro df h
    cases df with
    | nil => rfl
    | cons b bs =>
      simp only [scoreForHorizon]
      rw [if_pos h]
  · intro bars v hcl hlen hmean hgate
    have hret : ∀ r ∈ recentOf (computeIndicators F bars) m, r.ret1d = none := by
      intro r hrmem
      have hrdf : r ∈ computeIndicators F bars := by
        have h2 := hrmem
        unfold recentOf at h2
        exact List.mem_of_mem_filter h2
      exact ret1d_none_of_close_none F bars r hrdf (hcl r hrmem)
    have hne : computeIndicators F bars ≠ [] := by
      intro h0
      rw [h0] at hlen
      exact hlen (by simp [recentOf])
    obtain ⟨b, bs, hdf⟩ := List.exists_cons_of_ne_nil hne
    rw [hdf] at hcl hret hlen hmean ⊢
    have hclose : ∀ x ∈ (recentOf (b :: bs) m).map (·.close), x = none := by
      intro x hx
      rw [List.mem_map] at hx
      obtain ⟨r, hr, rfl⟩ := hx
      exact hcl r hr
    have hrets : ∀ x ∈ (recentOf (b :: bs) m).map (·.ret1d), x = none := by
      intro x hx
      rw [List.mem_map] at hx
      obtain ⟨r, hr, rfl⟩ := hx
      exact hret r hr
    have h1 : ((recentOf (b :: bs) m).map (·.close)).getLastD none = none :=
      allNone_getLastD _ _ rfl hclose
    have h2 : ((recentOf (b :: bs) m).map (·.close)).headD none = none :=
      allNone_headD _ hclose
    have h3 : stdF F ((recentOf (b :: bs) m).map (·.ret1d)) = none := by
      rw [stdF, filterMap_id_nil _ hrets]
      rfl
    simp only [scoreForHorizon]
    rw [if_neg hlen, hmean]
    split
    · rename_i hw
      exact absurd hw (by simp)
    · rename_i w hw
      obtain rfl := Option.some.inj hw
      rw [if_neg hgate, h1, h2, h3]
      rfl

/-- C4 witness: the empty frame and a single-bar frame are Insufficient;
the 10-bar all-NaN-closes frame `dfAllNaN` (volume 50000) yields the
NaN-filled HorizonScore. -/
theorem c4_witness :
    scoreForHorizon F0 [] 6 = none
    ∧ scoreForHorizon F0 [ibar0] 6 = none
    ∧ scoreForHorizon F0 (computeIndicators F0 dfAllNaN) 6 = some ⟨none, none, 50000, none⟩ :=
  ⟨(c4_amended_thm F0 6).1,
    (c4_amended_thm F0 6).2.1 [ibar0] (by decide),
    (c4_amended_thm F0 6).2.2 dfAllNaN 50000 (by decide) (by decide) (by decide) (by decide)⟩

/-- C4 counterexample: the claim says an all-NaN-closes window produces no
HorizonScore entry for the horizon's pool; running the main scan on the
close-less `dfAllNaN` world, the 6-month pool nevertheless contains an
entry (with NaN return/volatility/score). -/
theorem c4_counterexample :
    poolFor F0 OallNaN none ["A"] 6 = [⟨"A", 6, none, none, 50000, none⟩] := by
  decide

/-- C3: the `min_avg_vol` argument of `analyze_universe` is dead — two runs
differing only in it are identical (`score_for_horizon` reads the module
constant `MIN_AVG_VOLUME = 30000` instead) — and a frame whose average
volume is 40000 still scores (as `r40`) even though the caller demanded a
50000 threshold: with `min_avg_vol = 50000` the symbol is counted in every
horizon. -/
theorem c3_failing_eval :
    (∀ (F : FloatOps) (O : Oracles) (syms : List String) (ud un : Bool)
      (nk : Option String) (mav mav2 : ℚ),
      analyzeUniverse F O syms ud un nk mav = analyzeUniverse F O syms ud un nk mav2)
    ∧ scoreForHorizon F0 dfGI 6 = some r40
    ∧ countsOf (analyzeUniverse F0 Ogood ["A"] false false none 50000) =
        some [(6, 1), (12, 1), (18, 1), (24, 1), (48, 1)] :=
  ⟨fun _ _ _ _ _ _ _ _ => rfl, by decide, by decide⟩

/-- The running fold of `min` lands in the list. -/
theorem foldl_min_mem (x : ℚ) (xs : List ℚ) : xs.foldl min x ∈ x :: xs := by
  induction xs generalizing x with
  | nil => simp
  | cons y ys ih =>
    rw [List.foldl_cons]
    rcases List.mem_cons.1 (ih (min x y)) with h1 | h1
    · rcases min_choice x y with hc | hc <;> rw [h1, hc]
      · exact List.mem_cons_self _ _
      · exact List.mem_cons_of_mem _ (List.mem_cons_self _ _)
    · exact List.mem_cons_of_mem _ (List.mem_cons_of_mem _ h1)

/-- The running fold of `min` is a lower bound. -/
theorem foldl_min_le (x : ℚ) (xs : List ℚ) : ∀ b ∈ x :: xs, xs.foldl min x ≤ b := by
  induction xs generalizing x with
  | nil =>
    intro b hb
    rw [List.mem_singleton] at hb
    rw [hb]
    exact le_refl _
  | cons y ys ih =>
    intro b hb
    rw [List.foldl_cons]
    rcases List.mem_cons.1 hb with hb0 | hb1
    · rw [hb0]
      exact le_trans (ih (min x y) (min x y) (List.mem_cons_self _ _)) (min_le_left x y)
    · rcases List.mem_cons.1 hb1 with hb0 | hb2
      · rw [hb0]
        exact le_trans (ih (min x y) (min x y) (List.mem_cons_self _ _)) (min_le_right x y)
      · exact ih (min x y) b (List.mem_cons_of_mem _ hb2)

/-- The running fold of `max` lands in the list. -/
theorem foldl_max_mem (x : ℚ) (xs : List ℚ) : xs.foldl max x ∈ x :: xs := by
  induction xs generalizing x with
  | nil => simp
  | cons y ys ih =>
    rw [List.foldl_cons]
    rcases List.mem_cons.1 (ih (max x y)) with h1 | h1
    · rcases max_choice x y with hc | hc <;> rw [h1, hc]
      · exact List.mem_cons_self _ _
      · exact List.mem_cons_of_mem _ (List.mem_cons_self _ _)
    · exact List.mem_cons_of_mem _ (List.mem_cons_of_mem _ h1)

/-- The running fold of `max` is an upper bound. -/
theorem le_foldl_max (x : ℚ) (xs : List ℚ) : ∀ b ∈ x :: xs, b ≤ xs.foldl max x := by
  induction xs generalizing x with
  | nil =>
    intro b hb
    rw [List.mem_singleton] at hb
    rw [hb]
    exact le_refl _
  | cons y ys ih =>
    intro b hb
    rw [List.foldl_cons]
    rcases List.mem_cons.1 hb with hb0 | hb1
    · rw [hb0]
      exact le_trans (le_max_left x y) (ih (max x y) (max x y) (List.mem_cons_self _ _))
    · rcases List.mem_cons.1 hb1 with hb0 | hb2
      · rw [hb0]
        exact le_trans (le_max_right x y) (ih (max x y) (max x y) (List.mem_cons_self _ _))
      · exact ih (max x y) b (List.mem_cons_of_mem _ hb2)

/-- The pandas column minimum is the least element. -/
theorem minQ_spec (l : List ℚ) (a : ℚ) (h : minQ l = some a) :
    a ∈ l ∧ ∀ b ∈ l, a ≤ b := by
  cases l with
  | nil => exact absurd h (by simp [minQ])
  | cons x xs =>
    simp only [minQ] at h
    obtain rfl := Option.some.inj h
    exact ⟨foldl_min_mem x xs, foldl_min_le x xs⟩

/-- The pandas column maximum is the greatest element. -/
theorem maxQ_spec (l : List ℚ) (a : ℚ) (h : maxQ l = some a) :
    a ∈ l ∧ ∀ b ∈ l, b ≤ a := by
  cases l with
  | nil => exact absurd h (by simp [maxQ])
  | cons x xs =>
    simp only [maxQ] at h
    obtain rfl := Option.some.inj h
    exact ⟨foldl_max_mem x xs, le_foldl_max x xs⟩

/-- A defined `getD` read is in range. -/
theorem lt_of_getD_some (l : List F64) (i : ℕ) (x : ℚ)
    (h : l.getD i none = some x) : i < l.length := by
  by_contra hn
  push_neg at hn
  rw [List.getD_eq_default _ _ hn] at h
  exact Option.noConfusion h

/-- A defined `getD` read is a member. -/
theorem mem_of_getD (l : List F64) (i : ℕ) (x : ℚ)
    (h : l.getD i none = some x) : some x ∈ l := by
  have hi := lt_of_getD_some l i x h
  rw [List.getD_eq_getElem?_getD, List.getElem?_eq_getElem hi] at h
  simp only [Option.getD_some] at h
  exact h ▸ List.getElem_mem hi

/-- Mapped-column read, for NaN-preserving cell maps. -/
theorem getD_map_f64 (f : F64 → F64) (hf : f none = none) (l : List F64) (i : ℕ)
    (hi : i < l.length) : (l.map f).getD i none = f (l.getD i none) := by
  have h := getD_map_of_lt f l i none hi
  rwa [hf] at h

/-- C1 (amended): for a pool with at least one defined (non-NaN) composite
score, with `mn`/`mx` the min/max over the defined scores (pandas skips
NaN): when `mx - mn ≥ 1e-9`, each candidate with a defined score `s` gets
probability `(s - mn)/(mx - mn)`, which lies in `[0, 1]`, is monotone
non-decreasing in `s`, is 1 at a maximum-score candidate and 0 at a
minimum-score candidate — while a NaN-score candidate gets NaN, not a
value in `[0, 1]`; when `mx - mn < 1e-9`, every candidate (NaN-scored
included) gets probability 0.5. -/
theorem c1_amended_thm (scores : List F64) (mn mx : ℚ)
    (hmn : minQ (scores.filterMap id) = some mn)
    (hmx : maxQ (scores.filterMap id) = some mx) :
    (EPS_NORM ≤ mx - mn →
      (∀ i x, scores.getD i none = some x →
        (probEst scores).getD i none = some ((x - mn) / (mx - mn))
        ∧ 0 ≤ (x - mn) / (mx - mn) ∧ (x - mn) / (mx - mn) ≤ 1)
      ∧ (∀ i j x y, scores.getD i none = some x → scores.getD j none = some y →
          x ≤ y → ∃ px py, (probEst scores).getD i none = some px
            ∧ (probEst scores).getD j none = some py ∧ px ≤ py)
      ∧ (∀ i, scores.getD i none = some mx → (probEst scores).getD i none = some 1)
      ∧ (∀ i, scores.getD i none = some mn → (probEst scores).getD i none = some 0)
      ∧ (∀ i, i < scores.length → scores.getD i none = none →
          (probEst scores).getD i none = none))
    ∧ (mx - mn < EPS_NORM → probEst scores = scores.map fun _ => some (1 / 2)) := by
  have hmnS := minQ_spec _ _ hmn
  have hmxS := maxQ_spec _ _ hmx
  have hmnmx : mn ≤ mx := hmxS.2 mn hmnS.1
  constructor
  · intro hsp
    have dpos : (0 : ℚ) < mx - mn := lt_of_lt_of_le (by norm_num [EPS_NORM]) hsp
    have hcond : ltQB (absF (subF (maxQ (scores.filterMap id))
        (minQ (scores.filterMap id)))) EPS_NORM = false := by
      rw [hmn, hmx]
      simp only [subF, absF, ltQB]
      rw [abs_of_nonneg (sub_nonneg.2 hmnmx)]
      exact decide_eq_false (not_lt.2 hsp)
    have hPE : probEst scores =
        scores.map fun s => divF (subF s (some mn)) (subF (some mx) (some mn)) := by
      simp only [probEst]
      rw [hcond]
      simp only [Bool.false_eq_true, if_false]
      rw [hmn, hmx]
    have hf0 : (fun s => divF (subF s (some mn)) (subF (some mx) (some mn)))
        (none : F64) = none := rfl
    have hf1 : ∀ x : ℚ, divF (subF (some x) (some mn)) (subF (some mx) (some mn)) =
        some ((x - mn) / (mx - mn)) := by
      intro x
      simp only [subF, divF]
      rw [if_neg (ne_of_gt dpos)]
    have hval : ∀ i x, scores.getD i none = some x →
        (probEst scores).getD i none = some ((x - mn) / (mx - mn)) := by
      intro i x hx
      rw [hPE, getD_map_f64 _ hf0 _ _ (lt_of_getD_some _ _ _ hx), hx, hf1]
    have hdef : ∀ i x, scores.getD i none = some x → x ∈ scores.filterMap id := by
      intro i x hx
      exact List.mem_filterMap.2 ⟨some x, mem_of_getD _ _ _ hx, rfl⟩
    have hbound : ∀ i x, scores.getD i none = some x →
        0 ≤ (x - mn) / (mx - mn) ∧ (x - mn) / (mx - mn) ≤ 1 := by
      intro i x hx
      have hxd := hdef i x hx
      constructor
      · exact div_nonneg (sub_nonneg.2 (hmnS.2 x hxd)) (le_of_lt dpos)
      · rw [div_le_one dpos]
        exact sub_le_sub_right (hmxS.2 x hxd) mn
    refine ⟨fun i x hx => ⟨hval i x hx, hbound i x hx⟩, ?_, ?_, ?_, ?_⟩
    · intro i j x y hx hy hxy
      refine ⟨(x - mn) / (mx - mn), (y - mn) / (mx - mn), hval i x hx, hval j y hy, ?_⟩
      exact (div_le_div_iff_of_pos_right dpos).2 (sub_le_sub_right hxy mn)
    · intro i hx
      rw [hval i mx hx, div_self (ne_of_gt dpos)]
    · intro i hx
      rw [hval i mn hx, sub_self, zero_div]
    · intro i hi hx
      rw [hPE, getD_map_f64 _ hf0 _ _ hi, hx]
      rfl
  · intro hsp
    have hcond : ltQB (absF (subF (maxQ (scores.filterMap id))
        (minQ (scores.filterMap id)))) EPS_NORM = true := by
      rw [hmn, hmx]
      simp only [subF, absF, ltQB]
      rw [abs_of_nonneg (sub_nonneg.2 hmnmx)]
      exact decide_eq_true hsp
    simp only [probEst]
    rw [hcond]
    simp only [if_true]

/-- C1 witness: in the pool `[0, 1, 1/2, NaN]` the spread is 1 ≥ 1e-9; the
max-score candidate gets probability 1 and the NaN-score candidate NaN. -/
theorem c1_witness :
    minQ (([some 0, some 1, some (1 / 2), none] : List F64).filterMap id) = some 0
    ∧ (probEst [some 0, some 1, some (1 / 2), none]).getD 1 none = some 1
    ∧ (probEst [some 0, some 1, some (1 / 2), none]).getD 3 none = none := by
  refine ⟨by decide, ?_, ?_⟩
  · exact ((c1_amended_thm [some 0, some 1, some (1 / 2), none] 0 1 (by decide) (by decide)).1
      (by norm_num [EPS_NORM])).2.2.1 1 (by decide)
  · exact ((c1_amended_thm [some 0, some 1, some (1 / 2), none] 0 1 (by decide) (by decide)).1
      (by norm_num [EPS_NORM])).2.2.2.2 3 (by decide) (by decide)

/-- C1 counterexample: a pool holding a NaN composite score next to the
defined scores 0 and 1 (reachable: a close-less frame with healthy volume
scores NaN and enters its pool): the spread branch applies, but the NaN
candidate's probability estimate is NaN — not a number in `[0, 1]` as the
claim requires of every candidate. -/
theorem c1_counterexample :
    probEst [none, some 0, some 1] = [none, some 0, some 1] := by decide

/-- `Except` bind on a success. -/
theorem exceptBind_ok {α β : Type} (a : α) (f : α → Except Unit β) :
    (Except.ok a >>= f) = f a := rfl

/-- `Except` bind on a raised exception. -/
theorem exceptBind_err {α β : Type} (e : Unit) (f : α → Except Unit β) :
    ((Except.error e : Except Unit α) >>= f) = .error e := rfl

/-- Success is the existence of a value. -/
theorem isOkE_iff {α : Type} (e : Except Unit α) : isOkE e = true ↔ ∃ a, e = .ok a := by
  cases e <;> simp [isOkE]

/-- A symbol whose main-scan fetch raises in both providers contributes no
pool rows (the `except: continue` swallows it). -/
theorem symRows_of_errors (F : FloatOps) (O : Oracles) (tok : Option String)
    (s : String) (h1 : O.dhan s .pass1 = .error ()) (h2 : O.yf s .pass1 = .error ()) :
    symRows F O tok s = [] := by
  unfold symRows getHistory
  cases htok : tokTruthy tok
  · simp [htok, h2]
  · simp [htok, h1, h2]

/-- `get_history` succeeds whenever both providers answer without raising. -/
theorem getHistory_ok (O : Oracles) (sym : String) (site : Site) (tok : Option String)
    (hd : isOkE (O.dhan sym site) = true) (hy : isOkE (O.yf sym site) = true) :
    isOkE (getHistory O tok sym site) = true := by
  unfold getHistory
  cases htok : tokTruthy tok with
  | false =>
    simp only [htok, Bool.false_eq_true, if_false]
    exact hy
  | true =>
    simp only [htok, if_true]
    cases hdh : O.dhan sym site with
    | error e =>
      rw [hdh] at hd
      exact absurd hd (by simp [isOkE])
    | ok v =>
      cases v with
      | none => exact hy
      | some df =>
        cases hdf : df.isEmpty with
        | false => simp [hdf, isOkE]
        | true => simpa [hdf] using hy

/-- `compute_stop` succeeds whenever its re-fetch does. -/
theorem computeStop_ok (F : FloatOps) (O : Oracles) (tok : Option String) (sym : String)
    (hd : isOkE (O.dhan sym .stopCall) = true) (hy : isOkE (O.yf sym .stopCall) = true) :
    isOkE (computeStop F O tok sym) = true := by
  unfold computeStop
  obtain ⟨z, hz⟩ := (isOkE_iff _).1 (getHistory_ok O sym .stopCall tok hd hy)
  rw [hz, exceptBind_ok]
  rfl

/-- `compute_target` succeeds whenever its re-fetch does. -/
theorem computeTarget_ok (F : FloatOps) (O : Oracles) (tok : Option String) (sym : String)
    (hd : isOkE (O.dhan sym .targetCall) = true) (hy : isOkE (O.yf sym .targetCall) = true) :
    isOkE (computeTarget F O tok sym) = true := by
  unfold computeTarget
  obtain ⟨z, hz⟩ := (isOkE_iff _).1 (getHistory_ok O sym .targetCall tok hd hy)
  rw [hz, exceptBind_ok]
  rfl

/-- A sequential effectful map succeeds when every step does. -/
theorem mapME_ok {α β : Type} (f : α → Except Unit β) (l : List α)
    (h : ∀ a ∈ l, isOkE (f a) = true) : isOkE (mapME f l) = true := by
  induction l with
  | nil => rfl
  | cons a as ih =>
    obtain ⟨b, hb⟩ := (isOkE_iff _).1 (h a (List.mem_cons_self a as))
    obtain ⟨bs, hbs⟩ := (isOkE_iff _).1 (ih fun x hx => h x (List.mem_cons_of_mem _ hx))
    simp only [mapME]
    rw [hb, exceptBind_ok, hbs, exceptBind_ok]
    rfl

/-- The per-horizon post-processing succeeds when the second-pass helpers
do. -/
theorem topOne_ok (F : FloatOps) (O : Oracles) (tok : Option String) (rows : List PoolRow)
    (hstop : ∀ sym, isOkE (computeStop F O tok sym) = true)
    (htarg : ∀ sym, isOkE (computeTarget F O tok sym) = true) :
    isOkE (topOne F O tok rows) = true := by
  unfold topOne
  cases hre : rows.isEmpty with
  | true => simp [hre, isOkE]
  | false =>
    simp only [hre, Bool.false_eq_true, if_false]
    obtain ⟨ss, hss⟩ := (isOkE_iff _).1
      (mapME_ok _ _ fun (rp : PoolRow × F64) _ => hstop rp.1.symbol)
    obtain ⟨ts, hts⟩ := (isOkE_iff _).1
      (mapME_ok _ _ fun (rp : PoolRow × F64) _ => htarg rp.1.symbol)
    rw [hss, exceptBind_ok, hts, exceptBind_ok]
    rfl

/-- C2 (amended): a per-symbol failure in the *main scan* only skips that
symbol — when both providers raise for `s` in the first pass, the run on
`s :: rest` equals the run on `rest` — and the batch completes whenever
the setup secret lookup and the second-pass re-fetches succeed.  The
claim's further assertion, that a failure in the second-pass re-fetch also
only skips its symbol, is false (see the counterexample): those calls have
no exception handler. -/
theorem c2_amended_thm (F : FloatOps) (O : Oracles) (s : String)
    (rest syms : List String) (ud un : Bool) (nk : Option String) (mav : ℚ) :
    (O.dhan s .pass1 = .error () → O.yf s .pass1 = .error () →
      analyzeUniverse F O (s :: rest) ud un nk mav = analyzeUniverse F O rest ud un nk mav)
    ∧ ((ud = true → isOkE (O.getSecret "DHAN_TOKEN") = true) →
      (∀ sym : String, isOkE (O.dhan sym .stopCall) = true
        ∧ isOkE (O.yf sym .stopCall) = true
        ∧ isOkE (O.dhan sym .targetCall) = true
        ∧ isOkE (O.yf sym .targetCall) = true) →
      isOkE (analyzeUniverse F O syms ud un nk mav) = true) := by
  constructor
  · intro h1 h2
    unfold analyzeUniverse
    have hpool : ∀ tok h, poolFor F O tok (s :: rest) h = poolFor F O tok rest h := by
      intro tok h
      unfold poolFor
      rw [List.flatMap_cons, symRows_of_errors F O tok s h1 h2]
      rfl
    cases htok : (if ud then O.getSecret "DHAN_TOKEN" else pure none :
        Except Unit (Option String)) with
    | error e => rfl
    | ok tok =>
      simp only [exceptBind_ok]
      simp only [hpool]
  · intro hsec hsites
    unfold analyzeUniverse
    obtain ⟨tok, htok⟩ : ∃ tok, (if ud then O.getSecret "DHAN_TOKEN" else pure none :
        Except Unit (Option String)) = .ok tok := by
      cases ud with
      | false => exact ⟨none, rfl⟩
      | true => simpa using (isOkE_iff _).1 (hsec rfl)
    rw [htok, exceptBind_ok]
    have hst : ∀ sym, isOkE (computeStop F O tok sym) = true := fun sym =>
      computeStop_ok F O tok sym (hsites sym).1 (hsites sym).2.1
    have hta : ∀ sym, isOkE (computeTarget F O tok sym) = true := fun sym =>
      computeTarget_ok F O tok sym (hsites sym).2.2.1 (hsites sym).2.2.2
    have hmap : isOkE (mapME (fun h => topOne F O tok (poolFor F O tok syms h) >>=
        fun out => pure (h, out)) HORIZONS) = true := by
      apply mapME_ok
      intro h _
      obtain ⟨out, hout⟩ := (isOkE_iff _).1 (topOne_ok F O tok (poolFor F O tok syms h) hst hta)
      rw [hout, exceptBind_ok]
      rfl
    obtain ⟨tops, htops⟩ := (isOkE_iff _).1 hmap
    rw [htops, exceptBind_ok]
    rfl

/-- C2 witness: in the world `OSplit` (both providers raise for "B" in the
main scan, everything else succeeds), the run on `["B", "A"]` equals the
run on `["A"]` — "B" is skipped, the batch survives — and it completes. -/
theorem c2_witness :
    OSplit.dhan "B" .pass1 = .error ()
    ∧ analyzeUniverse F0 OSplit ["B", "A"] true false none 30000 =
        analyzeUniverse F0 OSplit ["A"] true false none 30000
    ∧ isOkE (analyzeUniverse F0 OSplit ["B", "A"] true false none 30000) = true :=
  ⟨rfl,
    (c2_amended_thm F0 OSplit "B" ["A"] ["B", "A"] true false none 30000).1 rfl rfl,
    (c2_amended_thm F0 OSplit "B" ["A"] ["B", "A"] true false none 30000).2
      (fun _ => rfl) (fun _ => ⟨rfl, rfl, rfl, rfl⟩)⟩

/-- C2 counterexample: in the world `OAbort` the single symbol "A" fetches
and scores normally in the main scan, but the stop-loss re-fetch raises;
the claim says only that symbol is skipped and the batch still returns a
report, yet `analyze_universe` aborts with the exception (no report). -/
theorem c2_counterexample :
    isOkE (analyzeUniverse F0 OAbort ["A"] false false none 30000) = false := by decide
